import Mathlib

/-!
# Voice module of `vivisrc/say` (`mod/voice/voice.go`)

A shallow embedding of the per-guild voice-session manager and of its
text-to-speech frame loop.

* Go maps are association lists with replace-on-insert (`mapGet`, `mapSet`,
  `mapDelete`).
* Everything the module asks of its collaborators (discordgo, Polly, ffmpeg,
  gopus) is an oracle field of `Env`; every call that leaves the module is
  appended to `World.trace` as an `Effect`.
* Pointers: a `*voiceSession` is identified by the channel made for it by
  `make(chan bool)`, numbered from `World.nextChan`.
* Locks are not state.  The sequential functions run one call to completion;
  `stepT_hread` splits `GetSession` at the places where no lock is held.
-/

namespace Voice

/-! ## Constants (voice.go 22-29) -/

def audioSampleRate : Nat := 48000
def audioChannels : Nat := 2
def audioOpusFrameSize : Nat := 960
def audioOpusDataWidth : Nat := 2
def audioRawFrameSize : Nat := audioOpusFrameSize * audioChannels
def audioOpusMaxBytes : Nat := audioRawFrameSize * audioOpusDataWidth

/-! ## Data model -/

/-- The fields of `discordgo.VoiceConnection` the module reads. -/
structure VoiceConnection where
  GuildID : String
  ChannelID : String
  deriving DecidableEq, Repr

/-- The struct `voiceSession` (voice.go 44-49).  `Alive` is the identity of the
channel created by `make(chan bool)`; the mutex and the back pointer to the
module carry no data. -/
structure voiceSession where
  Connection : VoiceConnection
  Alive : Nat
  deriving DecidableEq, Repr

/-- The fields of `discordgo.VoiceState` the module reads. -/
structure VoiceState where
  UserID : String
  ChannelID : String
  deriving DecidableEq, Repr

/-- The fields of `discordgo.VoiceStateUpdate` the module can see. -/
structure VoiceStateUpdate where
  UserID : String
  GuildID : String
  ChannelID : String
  deriving DecidableEq, Repr

/-- The field of `discordgo.Guild` the module reads. -/
structure Guild where
  VoiceStates : List VoiceState
  deriving DecidableEq, Repr

/-- The fields of `say.User` (main.go 146-151) that `SayMessage` reads. -/
structure User where
  Voice : String
  VoiceLang : String
  deriving DecidableEq, Repr

/-- The struct `polly.SynthesizeSpeechInput` as filled in at voice.go 226-233. -/
structure SynthesizeSpeechInput where
  Engine : String
  OutputFormat : String
  Text : String
  TextType : String
  VoiceId : String
  LanguageCode : String
  deriving DecidableEq, Repr

/-- Calls that leave the module, in the order they are made. -/
inductive Effect where
  /-- A send on `session.Alive` (voice.go 176, 283). -/
  | alive (ch : Nat)
  /-- The call `mod.Bot.ChannelVoiceJoin(guildID, channelID, false, true)`. -/
  | channelVoiceJoin (guildID channelID : String) (mute deaf : Bool)
  /-- The call `Disconnect()` on a connection (voice.go 187, 292). -/
  | disconnect (conn : VoiceConnection)
  /-- The watchdog goroutine started for a new session (voice.go 201-210). -/
  | watchdog (session : voiceSession)
  /-- The call `Polly.SynthesizeSpeech` (voice.go 226). -/
  | synthesizeSpeech (input : SynthesizeSpeechInput)
  /-- A send on `session.Connection.OpusSend` (voice.go 282). -/
  | opusSend (conn : VoiceConnection) (opus : List Nat)
  /-- The call `bot.InteractionRespond` with a content and the ephemeral flag. -/
  | interactionRespond (content : String) (ephemeral : Bool)
  deriving DecidableEq, Repr

/-- The transcoder output as `binary.Read` sees it: the bytes still to come and
what the reader reports once they are exhausted (`none` is a clean end of
stream, `some e` a read fault). -/
structure PcmStream where
  bytes : List Nat
  fault : Option String
  deriving DecidableEq, Repr

/-- Mutable state: the map `mod.Sessions`, the allocation counter for channels,
the frames handed so far to the shared `OpusEncoder`, and the effect trace. -/
structure World where
  Sessions : List (String × voiceSession)
  nextChan : Nat
  encoded : List (List Int)
  trace : List Effect
  deriving DecidableEq, Repr

/-- What the module reads from or asks of its collaborators. -/
structure Env where
  /-- The value `bot.State.User.ID`. -/
  SelfID : String
  /-- The lookup `bot.State.Guild(guildID)`. -/
  Guild : String → Except String Guild
  /-- The map `bot.VoiceConnections`, owned by discordgo. -/
  VoiceConnections : String → Option VoiceConnection
  /-- The call `bot.ChannelVoiceJoin`: the connection and the error it returns. -/
  ChannelVoiceJoin : String → String → VoiceConnection × Option String
  /-- The call `Polly.SynthesizeSpeech`: the audio stream or an error. -/
  SynthesizeSpeech : SynthesizeSpeechInput → Except String (List Nat)
  /-- The error of `ffmpeg.StdoutPipe()`, if any. -/
  StdoutPipe : Option String
  /-- The error of `ffmpeg.Start()`, if any. -/
  Start : Option String
  /-- The standard output of ffmpeg for a given standard input. -/
  Transcode : List Nat → PcmStream
  /-- The call `OpusEncoder.Encode(pcm, frameSize, maxDataBytes)`; the first
  argument is the list of frames the shared encoder was handed before. -/
  Encode : List (List Int) → List Int → Nat → Nat → Except String (List Nat)

/-! ## Go maps -/

/-- The lookup `m[k]` with its `ok` flag. -/
def mapGet {α : Type} (m : List (String × α)) (k : String) : Option α :=
  match m with
  | [] => none
  | (k1, v) :: rest => if k1 = k then some v else mapGet rest k

/-- The builtin `delete(m, k)`. -/
def mapDelete {α : Type} (m : List (String × α)) (k : String) : List (String × α) :=
  match m with
  | [] => []
  | (k1, v) :: rest => if k1 = k then mapDelete rest k else (k1, v) :: mapDelete rest k

/-- The assignment `m[k] = v`. -/
def mapSet {α : Type} (m : List (String × α)) (k : String) (v : α) : List (String × α) :=
  (k, v) :: mapDelete m k

/-- Append one effect to the trace. -/
def emit (w : World) (e : Effect) : World :=
  { w with trace := w.trace ++ [e] }

/-! ## `voiceSession.Close` (voice.go 287-293) -/

/-- The method `Close`: delete the registry entry keyed by the connection's guild
and call `Disconnect` on the connection. -/
def Close (session : voiceSession) (w : World) : World :=
  emit { w with Sessions := mapDelete w.Sessions session.Connection.GuildID }
    (.disconnect session.Connection)

/-! ## `voiceModule.GetSession` (voice.go 167-215) -/

/-- Lines 168-170: the lookup made under the read lock. -/
def GetSession.lookup (w : World) (guildID : String) : Option voiceSession :=
  mapGet w.Sessions guildID

/-- Lines 171-178: the branch taken when the lookup found a session. -/
def GetSession.found (w : World) (session : voiceSession) (channelID : String) :
    World × Except String voiceSession :=
  if session.Connection.ChannelID ≠ channelID then
    (w, .error "already in another voice channel")
  else
    (emit w (.alive session.Alive), .ok session)

/-- Lines 193-214: make the channel and the session, start the watchdog and
register the session under `guildID`. -/
def GetSession.register (w : World) (guildID : String) (connection : VoiceConnection) :
    World × Except String voiceSession :=
  let session : voiceSession := { Connection := connection, Alive := w.nextChan }
  let w1 := emit { w with nextChan := w.nextChan + 1 } (.watchdog session)
  ({ w1 with Sessions := mapSet w1.Sessions guildID session }, .ok session)

/-- Lines 180-214: the branch run under the write lock when the lookup found
nothing.  The map is not consulted again. -/
def GetSession.create (env : Env) (w : World) (guildID channelID : String) :
    World × Except String voiceSession :=
  match env.VoiceConnections guildID with
  | some connection => GetSession.register w guildID connection
  | none =>
    let w1 := emit w (.channelVoiceJoin guildID channelID false true)
    match env.ChannelVoiceJoin guildID channelID with
    | (new, some err) => (emit w1 (.disconnect new), .error err)
    | (new, none) => GetSession.register w1 guildID new

/-- The method `GetSession`, run without interference. -/
def GetSession (env : Env) (w : World) (guildID channelID : String) :
    World × Except String voiceSession :=
  match GetSession.lookup w guildID with
  | some session => GetSession.found w session channelID
  | none => GetSession.create env w guildID channelID

/-! ## `voiceSession.SayMessage` (voice.go 217-285) -/

/-- Whether the second list starts the first one. -/
def startsWith : List Char → List Char → Bool
  | _, [] => true
  | [], _ :: _ => false
  | c :: s, d :: p => c == d && startsWith s p

/-- Scan for an occurrence of `substr` at every position. -/
def containsChars : List Char → List Char → Bool
  | [], substr => startsWith [] substr
  | c :: s, substr => startsWith (c :: s) substr || containsChars s substr

/-- The library call `strings.Contains(s, substr)`. -/
def stringsContains (s substr : String) : Bool :=
  containsChars s.data substr.data

/-- Reinterpret a 16-bit pattern as a Go `int16`. -/
def toInt16 (n : Nat) : Int :=
  if n % 65536 < 32768 then (n % 65536 : Nat) else ((n % 65536 : Nat) : Int) - 65536

/-- Little-endian decoding of consecutive byte pairs into `int16` samples. -/
def decodeLE : List Nat → List Int
  | lo :: hi :: rest => toInt16 (lo % 256 + 256 * (hi % 256)) :: decodeLE rest
  | _ => []

/-- The errors `binary.Read` can return. -/
inductive ReadError where
  | EOF
  | ErrUnexpectedEOF
  | other (msg : String)
  deriving DecidableEq, Repr

/-- The call `binary.Read(rawPcm, binary.LittleEndian, &pcm)` for a slice of `n`
samples: `io.ReadFull` of `2 * n` bytes.  With fewer bytes left the reader's
fault is returned if it has one, else `io.EOF` when nothing was read and
`io.ErrUnexpectedEOF` otherwise. -/
def binaryRead (r : PcmStream) (n : Nat) : Except ReadError (List Int) × PcmStream :=
  if 2 * n ≤ r.bytes.length then
    (.ok (decodeLE (r.bytes.take (2 * n))), { r with bytes := r.bytes.drop (2 * n) })
  else
    match r.fault with
    | some e => (.error (.other e), { r with bytes := [] })
    | none =>
      if r.bytes.length = 0 then (.error .EOF, { r with bytes := [] })
      else (.error .ErrUnexpectedEOF, { r with bytes := [] })

/-- The loop at voice.go 266-284. -/
def frameLoop (env : Env) (session : voiceSession) (rawPcm : PcmStream) (w : World) :
    World × Option String :=
  match _hread : binaryRead rawPcm audioRawFrameSize with
  | (.error .EOF, _) => (w, none)
  | (.error .ErrUnexpectedEOF, _) => (w, none)
  | (.error (.other e), _) => (w, some ("couldn't read raw audio: " ++ e))
  | (.ok pcm, rest) =>
    let w1 := { w with encoded := w.encoded ++ [pcm] }
    match env.Encode w.encoded pcm audioOpusFrameSize audioOpusMaxBytes with
    | .error e => (w1, some ("couldn't encode raw audio: " ++ e))
    | .ok opus =>
      frameLoop env session rest
        (emit (emit w1 (.opusSend session.Connection opus)) (.alive session.Alive))
termination_by rawPcm.bytes.length
decreasing_by
  unfold binaryRead at _hread
  split at _hread
  · rename_i hlen
    have hr : rest = { rawPcm with bytes := rawPcm.bytes.drop (2 * audioRawFrameSize) } :=
      (congrArg Prod.snd _hread).symm
    subst hr
    simp only [List.length_drop]
    have : 0 < 2 * audioRawFrameSize := by decide
    omega
  · split at _hread
    · cases _hread
    · split at _hread <;> cases _hread

/-- The request built at voice.go 218-233. -/
def synthesisInput (message : String) (user : User) : SynthesizeSpeechInput :=
  let textType := if stringsContains message "<speak>" then "ssml" else "text"
  let engine := "standard"
  let outputFormat := "ogg_vorbis"
  { Engine := engine, OutputFormat := outputFormat, Text := message, TextType := textType,
    VoiceId := user.Voice, LanguageCode := user.VoiceLang }

/-- The method `SayMessage`. -/
def SayMessage (env : Env) (session : voiceSession) (message : String) (user : User)
    (w : World) : World × Option String :=
  let input := synthesisInput message user
  let w1 := emit w (.synthesizeSpeech input)
  match env.SynthesizeSpeech input with
  | .error e => (w1, some ("unable to synthesize speech: " ++ e))
  | .ok audio =>
    match env.StdoutPipe with
    | some e => (w1, some ("couldn't create pipe to transcoder: " ++ e))
    | none =>
      match env.Start with
      | some e => (w1, some ("couldn't start transcoder: " ++ e))
      | none => frameLoop env session (env.Transcode audio) w1

/-! ## `voiceModule.HandleSay` (voice.go 140-165) -/

/-- The loop at voice.go 146-162 and the return after it. -/
def HandleSay.loop (env : Env) (content : String) (user : User) (guildID userID : String) :
    List VoiceState → World → World × Option String
  | [], w => (w, some "you aren't in a voice channel")
  | state :: rest, w =>
    if state.UserID = userID then
      match GetSession env w guildID state.ChannelID with
      | (w1, .error err) => (w1, some err)
      | (w1, .ok session) =>
        match SayMessage env session content user w1 with
        | (w2, some err) => (w2, some ("internal error: " ++ err))
        | (w2, none) => (w2, none)
    else HandleSay.loop env content user guildID userID rest w

/-- The method `HandleSay`. -/
def HandleSay (env : Env) (content : String) (user : User) (guildID userID : String)
    (w : World) : World × Option String :=
  match env.Guild guildID with
  | .error err => (w, some err)
  | .ok guild => HandleSay.loop env content user guildID userID guild.VoiceStates w

/-! ## The voice-state handler (voice.go 127-135) -/

/-- The handler installed for `discordgo.VoiceStateUpdate`. -/
def onVoiceStateUpdate (env : Env) (voiceState : VoiceStateUpdate) (w : World) : World :=
  if voiceState.UserID ≠ env.SelfID then w
  else
    match mapGet w.Sessions voiceState.GuildID with
    | some session => Close session w
    | none => w

/-! ## `leaveCommand.Handle` (voice.go 462-516) -/

/-- The loop at voice.go 480-507 followed by the reply at 509-515, which is what
both a `break` and the end of the loop reach. -/
def leaveCommand.loop (session : voiceSession) (memberID : String) (w : World) :
    List VoiceState → World
  | [] => emit w (.interactionRespond "You need to be in my voice channel to make me leave" true)
  | state :: rest =>
    if state.UserID = memberID then
      if session.Connection.ChannelID ≠ state.ChannelID then
        emit w (.interactionRespond "You need to be in my voice channel to make me leave" true)
      else
        emit (Close session w) (.interactionRespond "Successfully disconnected!" false)
    else leaveCommand.loop session memberID w rest

/-- The method `leaveCommand.Handle` for an interaction in `guildID` made by the
member `memberID`.  At line 488 `err` is known to be nil, so only the else
branch is kept. -/
def leaveCommand.Handle (env : Env) (guildID memberID : String) (w : World) : World :=
  match mapGet w.Sessions guildID with
  | none => emit w (.interactionRespond "I'm not in any voice channel" true)
  | some session =>
    match env.Guild guildID with
    | .error _ => w
    | .ok guild => leaveCommand.loop session memberID w guild.VoiceStates

/-! ## Two concurrent calls of `GetSession` -/

/-- Where a call of `GetSession` stands: before the read-locked lookup, between
`RUnlock` and the next statement, or returned. -/
inductive T_hread where
  | start
  | looked (found : Option voiceSession)
  | done (result : Except String voiceSession)

/-- One atomic step of a call: the read-locked lookup, then either the found
branch or the write-locked creation. -/
def stepT_hread (env : Env) (guildID channelID : String) (t : T_hread) (w : World) :
    T_hread × World :=
  match t with
  | .start => (.looked (GetSession.lookup w guildID), w)
  | .looked (some session) =>
    ((.done (GetSession.found w session channelID).2), (GetSession.found w session channelID).1)
  | .looked none =>
    ((.done (GetSession.create env w guildID channelID).2),
      (GetSession.create env w guildID channelID).1)
  | .done r => (.done r, w)

/-- Run two calls for the same guild and channel under a schedule; `false` steps
the first call and `true` the second.  `envA` and `envB` are what the first and
the second call find around them (discordgo keeps `bot.VoiceConnections` up to
date behind the module, so the two may differ). -/
def runSchedule (envA envB : Env) (guildID channelID : String) :
    List Bool → T_hread × T_hread × World → T_hread × T_hread × World
  | [], st => st
  | false :: rest, (a, b, w) =>
    runSchedule envA envB guildID channelID rest
      ((stepT_hread envA guildID channelID a w).1, b, (stepT_hread envA guildID channelID a w).2)
  | true :: rest, (a, b, w) =>
    runSchedule envA envB guildID channelID rest
      (a, (stepT_hread envB guildID channelID b w).1, (stepT_hread envB guildID channelID b w).2)

/-! ## Reference sequence for the frame loop -/

/-- What an encoder `enc` (a function of the frames it was handed before and of
the current frame) produces for a list of frames taken in order, one output per
frame. -/
def encodeInOrder (enc : List (List Int) → List Int → List Nat) :
    List (List Int) → List (List Int) → List (List Nat)
  | _, [] => []
  | history, pcm :: rest => enc history pcm :: encodeInOrder enc (history ++ [pcm]) rest

/-! ## Concrete data used to instantiate the theorems -/

/-- A guild `"g"` in which `alice` sits in channel `"A"`; no raw connection is
known, every join succeeds with a connection bound to what was asked, synthesis
and transcoding pass their input through and the encoder returns the frame
length. -/
def env0 : Env where
  SelfID := "bot"
  Guild := fun g =>
    if g = "g" then .ok { VoiceStates := [{ UserID := "alice", ChannelID := "A" }] }
    else .error "state cache not found"
  VoiceConnections := fun _ => none
  ChannelVoiceJoin := fun g c => ({ GuildID := g, ChannelID := c }, none)
  SynthesizeSpeech := fun input => .ok (List.replicate input.Text.length 0)
  StdoutPipe := none
  Start := none
  Transcode := fun audio => { bytes := audio, fault := none }
  Encode := fun _ pcm _ _ => .ok [pcm.length]

/-- As `env0`, but discordgo already holds a raw connection for `"g"`, bound to
channel `"A"`. -/
def envRaw : Env :=
  { env0 with
    VoiceConnections := fun g =>
      if g = "g" then some { GuildID := "g", ChannelID := "A" } else none }

/-- As `env0`, but synthesis fails. -/
def envSynthFails : Env :=
  { env0 with SynthesizeSpeech := fun _ => .error "quota" }

/-- The session bound to channel `"A"` of guild `"g"`. -/
def sessionA : voiceSession :=
  { Connection := { GuildID := "g", ChannelID := "A" }, Alive := 0 }

/-- No session registered. -/
def world0 : World :=
  { Sessions := [], nextChan := 0, encoded := [], trace := [] }

/-- The session `sessionA` registered under `"g"`. -/
def worldA : World :=
  { Sessions := [("g", sessionA)], nextChan := 1, encoded := [], trace := [] }

/-! ## Lemmas on maps -/

theorem mapGet_mapDelete_self {α : Type} (m : List (String × α)) (k : String) :
    mapGet (mapDelete m k) k = none := by
  induction m with
  | nil => rfl
  | cons p rest ih =>
    obtain ⟨k1, v⟩ := p
    by_cases h : k1 = k
    · simp [mapDelete, h, ih]
    · simp [mapDelete, mapGet, h, ih]

theorem mapGet_mapDelete_other {α : Type} (m : List (String × α)) (k k2 : String)
    (hk : k2 ≠ k) : mapGet (mapDelete m k) k2 = mapGet m k2 := by
  induction m with
  | nil => rfl
  | cons p rest ih =>
    obtain ⟨k1, v⟩ := p
    by_cases h : k1 = k
    · subst h
      have h2 : ¬ k1 = k2 := fun e => hk e.symm
      simp [mapDelete, mapGet, h2, ih]
    · by_cases h3 : k1 = k2
      · subst h3
        simp [mapDelete, mapGet, h]
      · simp [mapDelete, mapGet, h, h3, ih]

theorem mapDelete_mapDelete {α : Type} (m : List (String × α)) (k : String) :
    mapDelete (mapDelete m k) k = mapDelete m k := by
  induction m with
  | nil => rfl
  | cons p rest ih =>
    obtain ⟨k1, v⟩ := p
    by_cases h : k1 = k
    · simp [mapDelete, h, ih]
    · simp [mapDelete, h, ih]

theorem mapGet_mapSet_self {α : Type} (m : List (String × α)) (k : String) (v : α) :
    mapGet (mapSet m k v) k = some v := by
  simp [mapSet, mapGet]

/-! ## `GetSession` -/

/-- C1: when a session is registered under `guildID` with its connection bound
to `c`, a request for another channel returns the error "already in another
voice channel" and leaves the world as it was: no pulse, no join, the same
registry, the same session still bound to `c`. -/
theorem GetSession_channel_conflict (env : Env) (w : World) (guildID channelID c : String)
    (session : voiceSession) (hreg : mapGet w.Sessions guildID = some session)
    (hbound : session.Connection.ChannelID = c) (hne : channelID ≠ c) :
    GetSession env w guildID channelID = (w, .error "already in another voice channel") ∧
      (GetSession env w guildID channelID).1.trace = w.trace ∧
      (GetSession env w guildID channelID).1.Sessions = w.Sessions ∧
      ∃ s, mapGet (GetSession env w guildID channelID).1.Sessions guildID = some s ∧
        s = session ∧ s.Connection.ChannelID = c := by
  have hres : GetSession env w guildID channelID =
      (w, .error "already in another voice channel") := by
    have hc : session.Connection.ChannelID ≠ channelID := by
      rw [hbound]; exact fun e => hne e.symm
    simp [GetSession, GetSession.lookup, hreg, GetSession.found, hc]
  rw [hres]
  exact ⟨rfl, rfl, rfl, session, hreg, rfl, hbound⟩

theorem GetSession_channel_conflict_witness :
    GetSession env0 worldA "g" "B" = (worldA, .error "already in another voice channel") ∧
      (GetSession env0 worldA "g" "B").1.trace = worldA.trace ∧
      (GetSession env0 worldA "g" "B").1.Sessions = worldA.Sessions ∧
      ∃ s, mapGet (GetSession env0 worldA "g" "B").1.Sessions "g" = some s ∧
        s = sessionA ∧ s.Connection.ChannelID = "A" :=
  GetSession_channel_conflict env0 worldA "g" "B" "A" sessionA (by decide) (by decide)
    (by decide)

/-- The two atomic steps of a call, run back to back, are `GetSession`. -/
theorem stepT_hread_sequential (env : Env) (guildID channelID : String) (w : World) :
    stepT_hread env guildID channelID
        (stepT_hread env guildID channelID .start w).1
        (stepT_hread env guildID channelID .start w).2 =
      (.done (GetSession env w guildID channelID).2, (GetSession env w guildID channelID).1) := by
  simp only [stepT_hread, GetSession]
  cases GetSession.lookup w guildID <;> rfl

/-- C10, at the failing input: no session is registered for `"g"`, discordgo
holds a raw connection for `"g"` bound to channel `"A"`, and the request is for
channel `"B"`.  `GetSession` succeeds, and the session it returns and registers
is bound to `"A"`. -/
theorem GetSession_reuse_other_channel :
    GetSession.lookup world0 "g" = none ∧
      (GetSession envRaw world0 "g" "B").2 =
        .ok { Connection := { GuildID := "g", ChannelID := "A" }, Alive := 0 } ∧
      mapGet (GetSession envRaw world0 "g" "B").1.Sessions "g" =
        some { Connection := { GuildID := "g", ChannelID := "A" }, Alive := 0 } ∧
      ("A" : String) ≠ "B" :=
  ⟨rfl, rfl, by decide, by decide⟩

/-- C4, at the failing schedule: two calls for guild `"g"` and channel `"A"`,
both doing their read-locked lookup before either takes the write lock.  The
first call joins and registers session 0; the second, finding the raw
connection the join left behind, registers session 1 over it.  Each call has
its own session and watchdog, the registry keeps only the second, and the first
call returns a session that is not the registered one.  The same happens when
the second call finds no raw connection and joins again. -/
theorem GetSession_race_two_sessions :
    runSchedule env0 envRaw "g" "A" [false, true, false, true] (.start, .start, world0) =
      (.done (.ok { Connection := { GuildID := "g", ChannelID := "A" }, Alive := 0 }),
       .done (.ok { Connection := { GuildID := "g", ChannelID := "A" }, Alive := 1 }),
       { Sessions := [("g", { Connection := { GuildID := "g", ChannelID := "A" }, Alive := 1 })],
         nextChan := 2,
         encoded := [],
         trace :=
          [.channelVoiceJoin "g" "A" false true,
           .watchdog { Connection := { GuildID := "g", ChannelID := "A" }, Alive := 0 },
           .watchdog { Connection := { GuildID := "g", ChannelID := "A" }, Alive := 1 }] }) ∧
    runSchedule env0 env0 "g" "A" [false, true, false, true] (.start, .start, world0) =
      (.done (.ok { Connection := { GuildID := "g", ChannelID := "A" }, Alive := 0 }),
       .done (.ok { Connection := { GuildID := "g", ChannelID := "A" }, Alive := 1 }),
       { Sessions := [("g", { Connection := { GuildID := "g", ChannelID := "A" }, Alive := 1 })],
         nextChan := 2,
         encoded := [],
         trace :=
          [.channelVoiceJoin "g" "A" false true,
           .watchdog { Connection := { GuildID := "g", ChannelID := "A" }, Alive := 0 },
           .channelVoiceJoin "g" "A" false true,
           .watchdog { Connection := { GuildID := "g", ChannelID := "A" }, Alive := 1 }] }) := by
  constructor <;>
  simp [runSchedule, stepT_hread, GetSession.lookup, GetSession.create, GetSession.register,
    env0, envRaw, world0, mapGet, mapSet, mapDelete, emit]

/-! ## `HandleSay` -/

theorem HandleSay_loop_absent (env : Env) (content : String) (user : User)
    (guildID userID : String) (states : List VoiceState) (w : World)
    (h : ∀ state ∈ states, state.UserID ≠ userID) :
    HandleSay.loop env content user guildID userID states w =
      (w, some "you aren't in a voice channel") := by
  induction states with
  | nil => rfl
  | cons state rest ih =>
    have h1 : state.UserID ≠ userID := h state (List.mem_cons_self _ _)
    have h2 : ∀ st ∈ rest, st.UserID ≠ userID := fun st hst => h st (List.mem_cons_of_mem _ hst)
    simp [HandleSay.loop, h1, ih h2]

/-- C3: when the guild's voice-state list has no entry for the requester,
`HandleSay` returns "you aren't in a voice channel" and the world is the one it
started from: nothing was appended to the trace (no `GetSession`, no synthesis
request) and the registry is unchanged. -/
theorem HandleSay_not_in_voice_channel (env : Env) (content : String) (user : User)
    (guildID userID : String) (guild : Guild) (w : World)
    (hguild : env.Guild guildID = .ok guild)
    (habsent : ∀ state ∈ guild.VoiceStates, state.UserID ≠ userID) :
    HandleSay env content user guildID userID w = (w, some "you aren't in a voice channel") ∧
      (HandleSay env content user guildID userID w).1.trace = w.trace ∧
      (HandleSay env content user guildID userID w).1.Sessions = w.Sessions := by
  have hres : HandleSay env content user guildID userID w =
      (w, some "you aren't in a voice channel") := by
    simp only [HandleSay, hguild]
    exact HandleSay_loop_absent env content user guildID userID guild.VoiceStates w habsent
  rw [hres]
  exact ⟨rfl, rfl, rfl⟩

theorem HandleSay_not_in_voice_channel_witness :
    HandleSay env0 "hello" { Voice := "Joanna", VoiceLang := "en-US" } "g" "bob" worldA =
        (worldA, some "you aren't in a voice channel") ∧
      (HandleSay env0 "hello" { Voice := "Joanna", VoiceLang := "en-US" } "g" "bob" worldA).1.trace
        = worldA.trace ∧
      (HandleSay env0 "hello" { Voice := "Joanna", VoiceLang := "en-US" } "g" "bob"
        worldA).1.Sessions = worldA.Sessions :=
  HandleSay_not_in_voice_channel env0 "hello" { Voice := "Joanna", VoiceLang := "en-US" } "g"
    "bob" { VoiceStates := [{ UserID := "alice", ChannelID := "A" }] } worldA rfl (by decide)

/-! ## `Close` -/

theorem Close_Sessions (session : voiceSession) (w : World) :
    (Close session w).Sessions = mapDelete w.Sessions session.Connection.GuildID := rfl

theorem Close_trace (session : voiceSession) (w : World) :
    (Close session w).trace = w.trace ++ [.disconnect session.Connection] := rfl

theorem Close_iterate_Sessions (session : voiceSession) (w : World) (k : Nat) :
    (Nat.iterate (Close session) (k + 1) w).Sessions =
      mapDelete w.Sessions session.Connection.GuildID := by
  induction k generalizing w with
  | zero => rfl
  | succ n ih =>
    rw [Function.iterate_succ_apply, ih, Close_Sessions, mapDelete_mapDelete]

theorem Close_iterate_trace (session : voiceSession) (w : World) (k : Nat) :
    (Nat.iterate (Close session) k w).trace =
      w.trace ++ List.replicate k (.disconnect session.Connection) := by
  induction k generalizing w with
  | zero => simp
  | succ n ih =>
    rw [Function.iterate_succ_apply, ih, Close_trace, List.replicate_succ, List.append_assoc]
    rfl

/-- C5, as the code has it: the first `Close` of a registered session removes the
entry keyed by its connection's guild, leaves the other entries alone and calls
`Disconnect` once.  `Close` is not guarded against repetition: `k + 1` calls in a
row leave the registry as the first one left it and call `Disconnect` `k + 1`
times, and in any later state a `Close` leaves no entry under that guild. -/
theorem Close_repeated (session : voiceSession) (w : World) (k : Nat)
    (hreg : mapGet w.Sessions session.Connection.GuildID = some session) :
    (Close session w).Sessions ≠ w.Sessions ∧
      mapGet (Close session w).Sessions session.Connection.GuildID = none ∧
      (∀ g, g ≠ session.Connection.GuildID →
        mapGet (Close session w).Sessions g = mapGet w.Sessions g) ∧
      (Close session w).trace = w.trace ++ [.disconnect session.Connection] ∧
      (Nat.iterate (Close session) (k + 1) w).Sessions = (Close session w).Sessions ∧
      (Nat.iterate (Close session) (k + 1) w).trace =
        w.trace ++ List.replicate (k + 1) (.disconnect session.Connection) ∧
      ∀ later : World,
        mapGet (Close session later).Sessions session.Connection.GuildID = none := by
  refine ⟨?_, mapGet_mapDelete_self _ _, ?_, rfl, ?_, Close_iterate_trace session w (k + 1), ?_⟩
  · intro heq
    have hnone : mapGet (Close session w).Sessions session.Connection.GuildID = none :=
      mapGet_mapDelete_self _ _
    rw [heq, hreg] at hnone
    cases hnone
  · intro g hg
    exact mapGet_mapDelete_other _ _ _ hg
  · rw [Close_iterate_Sessions, Close_Sessions]
  · intro later
    exact mapGet_mapDelete_self _ _

theorem Close_repeated_witness :
    (Close sessionA worldA).Sessions ≠ worldA.Sessions ∧
      mapGet (Close sessionA worldA).Sessions sessionA.Connection.GuildID = none ∧
      (∀ g, g ≠ sessionA.Connection.GuildID →
        mapGet (Close sessionA worldA).Sessions g = mapGet worldA.Sessions g) ∧
      (Close sessionA worldA).trace = worldA.trace ++ [.disconnect sessionA.Connection] ∧
      (Nat.iterate (Close sessionA) (1 + 1) worldA).Sessions = (Close sessionA worldA).Sessions ∧
      (Nat.iterate (Close sessionA) (1 + 1) worldA).trace =
        worldA.trace ++ List.replicate (1 + 1) (.disconnect sessionA.Connection) ∧
      ∀ later : World,
        mapGet (Close sessionA later).Sessions sessionA.Connection.GuildID = none :=
  Close_repeated sessionA worldA 1 (by decide)

/-- C5 fails as stated.  With `sessionA` registered under `"g"`: two calls of
`Close` call `Disconnect` on its connection twice; and when a new session has
been registered under `"g"` between the two calls, the second `Close` of the old
session removes the new one from the registry. -/
theorem Close_second_call_acts :
    mapGet worldA.Sessions "g" = some sessionA ∧
      (Close sessionA (Close sessionA worldA)).trace =
        [.disconnect sessionA.Connection, .disconnect sessionA.Connection] ∧
      mapGet (GetSession env0 (Close sessionA worldA) "g" "A").1.Sessions "g" =
        some { Connection := { GuildID := "g", ChannelID := "A" }, Alive := 1 } ∧
      mapGet (Close sessionA (GetSession env0 (Close sessionA worldA) "g" "A").1).Sessions "g" =
        none ∧
      (Close sessionA (GetSession env0 (Close sessionA worldA) "g" "A").1).Sessions ≠
        (GetSession env0 (Close sessionA worldA) "g" "A").1.Sessions := by
  refine ⟨by decide, by decide, by decide, by decide, by decide⟩

/-! ## The voice-state handler -/

/-- C8, as the code has it: with a session registered under the event's guild,
the handler calls `Close` on it exactly when the event's user is the bot's own
user, whatever channel the event reports; the session is then gone from the
registry and `Disconnect` has been called.  An event for any other user leaves
the world as it was. -/
theorem onVoiceStateUpdate_spec (env : Env) (voiceState : VoiceStateUpdate) (w : World)
    (session : voiceSession) (hreg : mapGet w.Sessions voiceState.GuildID = some session) :
    (voiceState.UserID = env.SelfID →
        onVoiceStateUpdate env voiceState w = Close session w ∧
        mapGet (onVoiceStateUpdate env voiceState w).Sessions session.Connection.GuildID = none ∧
        (onVoiceStateUpdate env voiceState w).trace =
          w.trace ++ [.disconnect session.Connection]) ∧
      (voiceState.UserID ≠ env.SelfID → onVoiceStateUpdate env voiceState w = w) := by
  constructor
  · intro hself
    have hres : onVoiceStateUpdate env voiceState w = Close session w := by
      simp [onVoiceStateUpdate, hself, hreg]
    rw [hres]
    exact ⟨rfl, mapGet_mapDelete_self _ _, rfl⟩
  · intro hother
    simp [onVoiceStateUpdate, hother]

theorem onVoiceStateUpdate_spec_witness :
    (("bot" : String) = env0.SelfID →
        onVoiceStateUpdate env0 { UserID := "bot", GuildID := "g", ChannelID := "" } worldA =
          Close sessionA worldA ∧
        mapGet (onVoiceStateUpdate env0 { UserID := "bot", GuildID := "g", ChannelID := "" }
          worldA).Sessions sessionA.Connection.GuildID = none ∧
        (onVoiceStateUpdate env0 { UserID := "bot", GuildID := "g", ChannelID := "" }
          worldA).trace = worldA.trace ++ [.disconnect sessionA.Connection]) ∧
      (("bot" : String) ≠ env0.SelfID →
        onVoiceStateUpdate env0 { UserID := "bot", GuildID := "g", ChannelID := "" } worldA =
          worldA) :=
  onVoiceStateUpdate_spec env0 { UserID := "bot", GuildID := "g", ChannelID := "" } worldA
    sessionA (by decide)

/-- C8 fails as stated.  The session of guild `"g"` is bound to channel `"A"`; an
event for the bot's own user that reports it in channel `"A"` (no departure)
removes the session from the registry and calls `Disconnect`. -/
theorem onVoiceStateUpdate_closes_without_departure :
    mapGet worldA.Sessions "g" = some sessionA ∧
      sessionA.Connection.ChannelID = "A" ∧
      mapGet (onVoiceStateUpdate env0 { UserID := "bot", GuildID := "g", ChannelID := "A" }
        worldA).Sessions "g" = none ∧
      (onVoiceStateUpdate env0 { UserID := "bot", GuildID := "g", ChannelID := "A" }
        worldA).trace = [.disconnect sessionA.Connection] := by
  refine ⟨by decide, by decide, by decide, by decide⟩

/-! ## `leaveCommand.Handle` -/

theorem leaveCommand_loop_match (session : voiceSession) (memberID : String) (w : World)
    (states : List VoiceState) (huniq : (states.map fun st => st.UserID).Nodup)
    (state : VoiceState) (hmem : state ∈ states) (huser : state.UserID = memberID)
    (hchan : state.ChannelID = session.Connection.ChannelID) :
    leaveCommand.loop session memberID w states =
      emit (Close session w) (.interactionRespond "Successfully disconnected!" false) := by
  induction states with
  | nil => cases hmem
  | cons x rest ih =>
    rw [List.map_cons, List.nodup_cons] at huniq
    by_cases hx : x.UserID = memberID
    · have hsx : state = x := by
        rcases List.mem_cons.mp hmem with h | h
        · exact h
        · exfalso
          apply huniq.1
          rw [hx, ← huser]
          exact List.mem_map_of_mem (fun st => st.UserID) h
      subst hsx
      simp [leaveCommand.loop, hx, hchan]
    · have hrest : state ∈ rest := by
        rcases List.mem_cons.mp hmem with h | h
        · subst h
          exact absurd huser hx
        · exact h
      simp [leaveCommand.loop, hx, ih huniq.2 hrest]

theorem leaveCommand_loop_no_match (session : voiceSession) (memberID : String) (w : World)
    (states : List VoiceState)
    (hno : ∀ state ∈ states, state.UserID = memberID →
      state.ChannelID ≠ session.Connection.ChannelID) :
    leaveCommand.loop session memberID w states =
      emit w (.interactionRespond "You need to be in my voice channel to make me leave" true) := by
  induction states with
  | nil => rfl
  | cons x rest ih =>
    have hrest : ∀ state ∈ rest, state.UserID = memberID →
        state.ChannelID ≠ session.Connection.ChannelID :=
      fun st hst => hno st (List.mem_cons_of_mem _ hst)
    by_cases hx : x.UserID = memberID
    · have hc : session.Connection.ChannelID ≠ x.ChannelID :=
        fun e => hno x (List.mem_cons_self _ _) hx e.symm
      simp [leaveCommand.loop, hx, hc]
    · simp [leaveCommand.loop, hx, ih hrest]

/-- C7: for a leave interaction whose guild lookup succeeds (the guild holding at
most one voice state per user), the handler calls `Close` on the guild's
session and replies "Successfully disconnected!" if and only if a session is
registered for the guild and the calling member has a voice state whose channel
is the session's channel.  With no session it replies "I'm not in any voice
channel"; with a session but no such voice state it replies "You need to be in
my voice channel to make me leave"; in both cases nothing else changes. -/
theorem leaveCommand_Handle_spec (env : Env) (guildID memberID : String) (guild : Guild)
    (w : World) (hguild : env.Guild guildID = .ok guild)
    (huniq : (guild.VoiceStates.map fun st => st.UserID).Nodup) :
    ((∃ session, mapGet w.Sessions guildID = some session ∧
          leaveCommand.Handle env guildID memberID w =
            emit (Close session w) (.interactionRespond "Successfully disconnected!" false)) ↔
        (∃ session, mapGet w.Sessions guildID = some session ∧
          ∃ state ∈ guild.VoiceStates, state.UserID = memberID ∧
            state.ChannelID = session.Connection.ChannelID)) ∧
      (mapGet w.Sessions guildID = none →
        leaveCommand.Handle env guildID memberID w =
          emit w (.interactionRespond "I'm not in any voice channel" true)) ∧
      (∀ session, mapGet w.Sessions guildID = some session →
        (¬ ∃ state ∈ guild.VoiceStates, state.UserID = memberID ∧
            state.ChannelID = session.Connection.ChannelID) →
        leaveCommand.Handle env guildID memberID w =
          emit w (.interactionRespond "You need to be in my voice channel to make me leave"
            true)) := by
  have hno : ∀ session, mapGet w.Sessions guildID = some session →
      (¬ ∃ state ∈ guild.VoiceStates, state.UserID = memberID ∧
          state.ChannelID = session.Connection.ChannelID) →
      leaveCommand.Handle env guildID memberID w =
        emit w (.interactionRespond "You need to be in my voice channel to make me leave"
          true) := by
    intro session hreg hnone
    simp only [leaveCommand.Handle, hreg, hguild]
    apply leaveCommand_loop_no_match
    intro state hmem huser hchan
    exact hnone ⟨state, hmem, huser, hchan⟩
  refine ⟨⟨?_, ?_⟩, ?_, hno⟩
  · rintro ⟨session, hreg, hres⟩
    refine ⟨session, hreg, ?_⟩
    by_contra hnone
    rw [hno session hreg hnone] at hres
    have hlen := congrArg (fun x : World => x.trace.length) hres
    simp [emit, Close] at hlen
  · rintro ⟨session, hreg, state, hmem, huser, hchan⟩
    refine ⟨session, hreg, ?_⟩
    simp only [leaveCommand.Handle, hreg, hguild]
    exact leaveCommand_loop_match session memberID w guild.VoiceStates huniq state hmem huser
      hchan
  · intro hnone
    simp [leaveCommand.Handle, hnone]

theorem leaveCommand_Handle_spec_witness :
    ((∃ session, mapGet worldA.Sessions "g" = some session ∧
          leaveCommand.Handle env0 "g" "alice" worldA =
            emit (Close session worldA)
              (.interactionRespond "Successfully disconnected!" false)) ↔
        (∃ session, mapGet worldA.Sessions "g" = some session ∧
          ∃ state ∈ ({ VoiceStates := [{ UserID := "alice", ChannelID := "A" }] } : Guild).VoiceStates,
            state.UserID = "alice" ∧ state.ChannelID = session.Connection.ChannelID)) ∧
      (mapGet worldA.Sessions "g" = none →
        leaveCommand.Handle env0 "g" "alice" worldA =
          emit worldA (.interactionRespond "I'm not in any voice channel" true)) ∧
      (∀ session, mapGet worldA.Sessions "g" = some session →
        (¬ ∃ state ∈ ({ VoiceStates := [{ UserID := "alice", ChannelID := "A" }] } : Guild).VoiceStates,
            state.UserID = "alice" ∧ state.ChannelID = session.Connection.ChannelID) →
        leaveCommand.Handle env0 "g" "alice" worldA =
          emit worldA
            (.interactionRespond "You need to be in my voice channel to make me leave" true)) :=
  leaveCommand_Handle_spec env0 "g" "alice"
    { VoiceStates := [{ UserID := "alice", ChannelID := "A" }] } worldA rfl (by decide)

/-! ## The frame loop -/

theorem frameLoop_full (env : Env) (session : voiceSession) (rawPcm : PcmStream) (w : World)
    (hlen : 2 * audioRawFrameSize ≤ rawPcm.bytes.length) :
    frameLoop env session rawPcm w =
      match env.Encode w.encoded (decodeLE (rawPcm.bytes.take (2 * audioRawFrameSize)))
          audioOpusFrameSize audioOpusMaxBytes with
      | .error e =>
        ({ w with encoded := w.encoded ++ [decodeLE (rawPcm.bytes.take (2 * audioRawFrameSize))] },
          some ("couldn't encode raw audio: " ++ e))
      | .ok opus =>
        frameLoop env session { rawPcm with bytes := rawPcm.bytes.drop (2 * audioRawFrameSize) }
          (emit (emit
            { w with encoded := w.encoded ++ [decodeLE (rawPcm.bytes.take (2 * audioRawFrameSize))] }
            (.opusSend session.Connection opus)) (.alive session.Alive)) := by
  rw [frameLoop]
  split
  all_goals rename_i heq
  all_goals simp only [binaryRead, hlen, if_true, Prod.mk.injEq] at heq
  · cases heq.1
  · cases heq.1
  · cases heq.1
  · obtain ⟨h1, h2⟩ := heq
    cases h1
    subst h2
    rfl

theorem frameLoop_short (env : Env) (session : voiceSession) (rawPcm : PcmStream) (w : World)
    (hlen : rawPcm.bytes.length < 2 * audioRawFrameSize) :
    frameLoop env session rawPcm w =
      match rawPcm.fault with
      | some e => (w, some ("couldn't read raw audio: " ++ e))
      | none => (w, none) := by
  have hn : ¬ 2 * audioRawFrameSize ≤ rawPcm.bytes.length := by omega
  rw [frameLoop]
  split
  all_goals rename_i heq
  all_goals simp only [binaryRead, hn, if_false] at heq
  all_goals cases hf : rawPcm.fault
  all_goals simp only [hf] at heq
  all_goals first
    | rfl
    | (simp at heq; obtain ⟨h1, _⟩ := heq; subst h1; rfl)
    | (split at heq <;> simp at heq)
    | (simp at heq)

theorem decodeLE_length : ∀ (n : Nat) (bytes : List Nat), bytes.length = 2 * n →
    (decodeLE bytes).length = n := by
  intro n
  induction n with
  | zero =>
    intro bytes h
    have : bytes = [] := List.length_eq_zero.mp (by omega)
    subst this
    rfl
  | succ k ih =>
    intro bytes h
    match bytes, h with
    | lo :: hi :: rest, h =>
      simp only [decodeLE, List.length_cons]
      have hr : rest.length = 2 * k := by
        simp only [List.length_cons] at h
        omega
      rw [ih rest hr]

/-- C2: for a stream made of `N` full frames of 3840 bytes followed by fewer than
3840 bytes and then a clean end, and an encoder that succeeds on every frame,
the frame loop returns no error, hands the encoder exactly the `N` decoded
frames in input order (never the remainder), and appends to the trace, for each
frame in order, the send of its encoding on `OpusSend` followed by a pulse.
Every frame handed to the encoder has 1920 samples. -/
theorem frameLoop_full_frames (env : Env) (session : voiceSession)
    (enc : List (List Int) → List Int → List Nat) (frames : List (List Nat))
    (remainder : List Nat) (w : World)
    (hframes : ∀ frame ∈ frames, frame.length = 2 * audioRawFrameSize)
    (hremainder : remainder.length < 2 * audioRawFrameSize)
    (henc : ∀ history pcm,
      env.Encode history pcm audioOpusFrameSize audioOpusMaxBytes = .ok (enc history pcm)) :
    frameLoop env session { bytes := frames.flatten ++ remainder, fault := none } w =
        ({ w with
            encoded := w.encoded ++ frames.map decodeLE,
            trace := w.trace ++
              (encodeInOrder enc w.encoded (frames.map decodeLE)).flatMap fun opus =>
                [.opusSend session.Connection opus, .alive session.Alive] },
          none) ∧
      (encodeInOrder enc w.encoded (frames.map decodeLE)).length = frames.length ∧
      (∀ pcm ∈ frames.map decodeLE, pcm.length = 1920) ∧
      2 * audioRawFrameSize = 3840 := by
  refine ⟨?_, ?_, ?_, by decide⟩
  rotate_left 2
  · intro pcm hpcm
    obtain ⟨frame, hmem, rfl⟩ := List.mem_map.mp hpcm
    exact decodeLE_length 1920 frame (hframes frame hmem)
  · induction frames generalizing w with
    | nil =>
      rw [frameLoop_short _ _ _ _ (by simpa using hremainder)]
      simp [encodeInOrder]
    | cons frame rest ih =>
      have hf : frame.length = 2 * audioRawFrameSize := hframes frame (List.mem_cons_self _ _)
      have hrest : ∀ fr ∈ rest, fr.length = 2 * audioRawFrameSize :=
        fun fr hfr => hframes fr (List.mem_cons_of_mem _ hfr)
      have hbytes : (frame :: rest).flatten ++ remainder = frame ++ (rest.flatten ++ remainder) := by
        simp
      rw [hbytes, frameLoop_full _ _ _ _ (by simp; omega)]
      simp only [List.take_left' hf, List.drop_left' hf, henc]
      rw [ih _ hrest]
      simp [emit, encodeInOrder]
  · have hlen : ∀ (pcms : List (List Int)) (history : List (List Int)),
        (encodeInOrder enc history pcms).length = pcms.length := by
      intro pcms
      induction pcms with
      | nil => intro history; rfl
      | cons p ps ih => intro history; simp [encodeInOrder, ih]
    simp [hlen]

theorem frameLoop_full_frames_witness :
    frameLoop env0 sessionA
        { bytes := [List.replicate 3840 0, List.replicate 3840 1].flatten ++ [7, 7, 7],
          fault := none } worldA =
        ({ worldA with
            encoded := worldA.encoded ++
              [List.replicate 3840 0, List.replicate 3840 1].map decodeLE,
            trace := worldA.trace ++
              (encodeInOrder (fun _ pcm => [pcm.length]) worldA.encoded
                ([List.replicate 3840 0, List.replicate 3840 1].map decodeLE)).flatMap fun opus =>
                [.opusSend sessionA.Connection opus, .alive sessionA.Alive] },
          none) ∧
      (encodeInOrder (fun _ pcm => [pcm.length]) worldA.encoded
        ([List.replicate 3840 0, List.replicate 3840 1].map decodeLE)).length =
          [List.replicate 3840 0, List.replicate 3840 1].length ∧
      (∀ pcm ∈ [List.replicate 3840 0, List.replicate 3840 1].map decodeLE, pcm.length = 1920) ∧
      2 * audioRawFrameSize = 3840 :=
  frameLoop_full_frames env0 sessionA (fun _ pcm => [pcm.length])
    [List.replicate 3840 0, List.replicate 3840 1] [7, 7, 7] worldA
    (by
      intro frame hframe
      simp only [List.mem_cons, List.mem_singleton, List.not_mem_nil, or_false] at hframe
      rcases hframe with h | h <;> subst h <;> exact List.length_replicate _ _)
    (by decide) (by intro history pcm; rfl)

theorem frameLoop_preserves (env : Env) (session : voiceSession) :
    ∀ (n : Nat) (rawPcm : PcmStream) (w : World), rawPcm.bytes.length ≤ n →
      (frameLoop env session rawPcm w).1.Sessions = w.Sessions ∧
      (∃ added, (frameLoop env session rawPcm w).1.trace = w.trace ++ added ∧
        (∀ c, Effect.disconnect c ∉ added) ∧ ∀ i, Effect.synthesizeSpeech i ∉ added) ∧
      ∀ e, (frameLoop env session rawPcm w).2 = some e →
        ∃ cause, e = "couldn't read raw audio: " ++ cause ∨
          e = "couldn't encode raw audio: " ++ cause := by
  intro n
  induction n with
  | zero =>
    intro rawPcm w hn
    have hshort : rawPcm.bytes.length < 2 * audioRawFrameSize := by
      have : 0 < 2 * audioRawFrameSize := by decide
      omega
    rw [frameLoop_short _ _ _ _ hshort]
    cases rawPcm.fault with
    | none => exact ⟨rfl, ⟨[], by simp, by simp, by simp⟩, by simp⟩
    | some m =>
      refine ⟨rfl, ⟨[], by simp, by simp, by simp⟩, ?_⟩
      intro e he
      exact ⟨m, Or.inl (Option.some.inj he).symm⟩
  | succ k ih =>
    intro rawPcm w hn
    by_cases hlen : 2 * audioRawFrameSize ≤ rawPcm.bytes.length
    · rw [frameLoop_full _ _ _ _ hlen]
      cases henc : env.Encode w.encoded (decodeLE (rawPcm.bytes.take (2 * audioRawFrameSize)))
          audioOpusFrameSize audioOpusMaxBytes with
      | error m =>
        refine ⟨rfl, ⟨[], by simp, by simp, by simp⟩, ?_⟩
        intro e he
        exact ⟨m, Or.inr (Option.some.inj he).symm⟩
      | ok opus =>
        have hdrop : (rawPcm.bytes.drop (2 * audioRawFrameSize)).length ≤ k := by
          have : 0 < 2 * audioRawFrameSize := by decide
          rw [List.length_drop]
          omega
        obtain ⟨hs, ⟨added, ht, hd, hy⟩, herr⟩ :=
          ih { rawPcm with bytes := rawPcm.bytes.drop (2 * audioRawFrameSize) }
            (emit (emit
              { w with
                encoded := w.encoded ++ [decodeLE (rawPcm.bytes.take (2 * audioRawFrameSize))] }
              (.opusSend session.Connection opus)) (.alive session.Alive)) hdrop
        refine ⟨hs, ⟨[.opusSend session.Connection opus, .alive session.Alive] ++ added, ?_, ?_, ?_⟩,
          herr⟩
        · rw [ht]
          simp [emit]
        · intro c hc
          simp only [List.mem_append, List.mem_cons, List.mem_singleton, List.not_mem_nil,
            or_false] at hc
          rcases hc with (h | h) | h
          · cases h
          · cases h
          · exact hd c h
        · intro i hi
          simp only [List.mem_append, List.mem_cons, List.mem_singleton, List.not_mem_nil,
            or_false] at hi
          rcases hi with (h | h) | h
          · cases h
          · cases h
          · exact hy i h
    · have hshort : rawPcm.bytes.length < 2 * audioRawFrameSize := by omega
      rw [frameLoop_short _ _ _ _ hshort]
      cases rawPcm.fault with
      | none => exact ⟨rfl, ⟨[], by simp, by simp, by simp⟩, by simp⟩
      | some m =>
        refine ⟨rfl, ⟨[], by simp, by simp, by simp⟩, ?_⟩
        intro e he
        exact ⟨m, Or.inl (Option.some.inj he).symm⟩

/-! ## `SayMessage` -/

theorem startsWith_iff (s p : List Char) : startsWith s p = true ↔ p <+: s := by
  induction p generalizing s with
  | nil => simp [startsWith]
  | cons d p ih =>
    cases s with
    | nil => simp [startsWith]
    | cons c s =>
      simp only [startsWith, Bool.and_eq_true, beq_iff_eq, ih, List.cons_prefix_cons]
      constructor
      · rintro ⟨h1, h2⟩
        exact ⟨h1.symm, h2⟩
      · rintro ⟨h1, h2⟩
        exact ⟨h1.symm, h2⟩

theorem containsChars_iff (s substr : List Char) :
    containsChars s substr = true ↔ substr <:+: s := by
  induction s with
  | nil => simp [containsChars, startsWith_iff]
  | cons c s ih =>
    simp only [containsChars, Bool.or_eq_true, startsWith_iff, ih, List.infix_cons_iff]

theorem SayMessage_effects (env : Env) (session : voiceSession) (message : String)
    (user : User) (w : World) :
    (SayMessage env session message user w).1.Sessions = w.Sessions ∧
      (∃ rest, (SayMessage env session message user w).1.trace =
          w.trace ++ .synthesizeSpeech (synthesisInput message user) :: rest ∧
        (∀ c, Effect.disconnect c ∉ rest) ∧ ∀ i, Effect.synthesizeSpeech i ∉ rest) ∧
      ∀ e, (SayMessage env session message user w).2 = some e →
        ∃ cause, e = "unable to synthesize speech: " ++ cause ∨
          e = "couldn't create pipe to transcoder: " ++ cause ∨
          e = "couldn't start transcoder: " ++ cause ∨
          e = "couldn't read raw audio: " ++ cause ∨
          e = "couldn't encode raw audio: " ++ cause := by
  unfold SayMessage
  simp only
  cases env.SynthesizeSpeech (synthesisInput message user) with
  | error m =>
    refine ⟨rfl, ⟨[], rfl, by simp, by simp⟩, ?_⟩
    intro e he
    exact ⟨m, Or.inl (Option.some.inj he).symm⟩
  | ok audio =>
    cases env.StdoutPipe with
    | some m =>
      refine ⟨rfl, ⟨[], rfl, by simp, by simp⟩, ?_⟩
      intro e he
      exact ⟨m, Or.inr (Or.inl (Option.some.inj he).symm)⟩
    | none =>
      cases env.Start with
      | some m =>
        refine ⟨rfl, ⟨[], rfl, by simp, by simp⟩, ?_⟩
        intro e he
        exact ⟨m, Or.inr (Or.inr (Or.inl (Option.some.inj he).symm))⟩
      | none =>
        obtain ⟨hs, ⟨added, ht, hd, hy⟩, herr⟩ :=
          frameLoop_preserves env session (env.Transcode audio).bytes.length (env.Transcode audio)
            (emit w (.synthesizeSpeech (synthesisInput message user))) (Nat.le_refl _)
        refine ⟨hs, ⟨added, ?_, hd, hy⟩, ?_⟩
        · rw [ht]
          simp [emit]
        · intro e he
          obtain ⟨cause, h | h⟩ := herr e he
          · exact ⟨cause, Or.inr (Or.inr (Or.inr (Or.inl h)))⟩
          · exact ⟨cause, Or.inr (Or.inr (Or.inr (Or.inr h)))⟩

/-- C9: `SayMessage` issues exactly one synthesis request, as its first effect.
Its text type is "ssml" if and only if the message contains "<speak>" and "text"
otherwise; its text is the message unchanged, its voice id and language are the
caller's `Voice` and `VoiceLang`, and its output format is "ogg_vorbis". -/
theorem SayMessage_request (env : Env) (session : voiceSession) (message : String)
    (user : User) (w : World) :
    ∃ input rest,
      (SayMessage env session message user w).1.trace =
        w.trace ++ .synthesizeSpeech input :: rest ∧
      (∀ other, Effect.synthesizeSpeech other ∉ rest) ∧
      (input.TextType = "ssml" ↔ "<speak>".data <:+: message.data) ∧
      (input.TextType = "text" ↔ ¬ "<speak>".data <:+: message.data) ∧
      input.Text = message ∧
      input.VoiceId = user.Voice ∧
      input.LanguageCode = user.VoiceLang ∧
      input.OutputFormat = "ogg_vorbis" := by
  obtain ⟨_, ⟨rest, ht, _, hy⟩, _⟩ := SayMessage_effects env session message user w
  refine ⟨synthesisInput message user, rest, ht, hy, ?_, ?_, rfl, rfl, rfl, rfl⟩
  · rw [← containsChars_iff]
    by_cases h : containsChars message.data "<speak>".data = true
    · simp [synthesisInput, stringsContains, h]
    · simp only [synthesisInput, stringsContains, h]
      simp
  · rw [← containsChars_iff]
    by_cases h : containsChars message.data "<speak>".data = true
    · simp only [synthesisInput, stringsContains, h]
      simp
    · simp [synthesisInput, stringsContains, h]

/-! ## Pipeline errors in `HandleSay` -/

theorem GetSession_register_ok (w w1 : World) (guildID : String) (connection : VoiceConnection)
    (session : voiceSession)
    (h : GetSession.register w guildID connection = (w1, .ok session)) :
    mapGet w1.Sessions guildID = some session ∧
      w1.trace = w.trace ++ [.watchdog session] ∧ session.Connection = connection := by
  simp only [GetSession.register, Prod.mk.injEq, Except.ok.injEq] at h
  obtain ⟨h1, h2⟩ := h
  subst h1
  subst h2
  exact ⟨mapGet_mapSet_self _ _ _, rfl, rfl⟩

theorem GetSession_ok (env : Env) (w w1 : World) (guildID channelID : String)
    (session : voiceSession) (h : GetSession env w guildID channelID = (w1, .ok session)) :
    mapGet w1.Sessions guildID = some session ∧
      ∃ added, w1.trace = w.trace ++ added ∧ ∀ c, Effect.disconnect c ∉ added := by
  unfold GetSession at h
  cases hl : GetSession.lookup w guildID with
  | some s0 =>
    rw [hl] at h
    simp only [GetSession.found] at h
    by_cases hc : s0.Connection.ChannelID ≠ channelID
    · rw [if_pos hc] at h
      cases h
    · rw [if_neg hc] at h
      simp only [Prod.mk.injEq, Except.ok.injEq] at h
      obtain ⟨h1, h2⟩ := h
      subst h1
      subst h2
      exact ⟨hl, [.alive s0.Alive], rfl, by simp⟩
  | none =>
    rw [hl] at h
    simp only [GetSession.create] at h
    cases hv : env.VoiceConnections guildID with
    | some connection =>
      rw [hv] at h
      obtain ⟨hm, ht, _⟩ := GetSession_register_ok _ _ _ _ _ h
      exact ⟨hm, [.watchdog session], ht, by simp⟩
    | none =>
      rw [hv] at h
      rcases hj : env.ChannelVoiceJoin guildID channelID with ⟨new, err⟩
      rw [hj] at h
      cases err with
      | some m => cases h
      | none =>
        obtain ⟨hm, ht, _⟩ := GetSession_register_ok _ _ _ _ _ h
        refine ⟨hm, [.channelVoiceJoin guildID channelID false true, .watchdog session], ?_,
          by simp⟩
        rw [ht]
        simp [emit]

theorem HandleSay_loop_found (env : Env) (content : String) (user : User)
    (guildID userID : String) (states : List VoiceState) (state : VoiceState) (w : World)
    (h : states.find? (fun st => decide (st.UserID = userID)) = some state) :
    HandleSay.loop env content user guildID userID states w =
      match GetSession env w guildID state.ChannelID with
      | (w1, .error err) => (w1, some err)
      | (w1, .ok session) =>
        match SayMessage env session content user w1 with
        | (w2, some err) => (w2, some ("internal error: " ++ err))
        | (w2, none) => (w2, none) := by
  induction states with
  | nil => cases h
  | cons x rest ih =>
    by_cases hx : x.UserID = userID
    · have hsx : x = state := by
        simpa [List.find?_cons, hx] using h
      subst hsx
      simp only [HandleSay.loop, hx, if_true]
    · have hrest : rest.find? (fun st => decide (st.UserID = userID)) = some state := by
        simpa [List.find?_cons, hx] using h
      simp only [HandleSay.loop, hx, if_false]
      exact ih hrest

/-- C6: when the requester has a voice state, `GetSession` for its channel
succeeds with `session`, and `SayMessage` fails with `e`, then `HandleSay`
returns the error "internal error: " followed by `e`; `e` is one of the five
pipeline errors; `Disconnect` was not called during the call (so `Close` was
not), and `session` is registered under the guild afterwards. -/
theorem HandleSay_pipeline_error (env : Env) (content : String) (user : User)
    (guildID userID : String) (guild : Guild) (state : VoiceState) (w w1 w2 : World)
    (session : voiceSession) (e : String)
    (hguild : env.Guild guildID = .ok guild)
    (hstate : guild.VoiceStates.find? (fun st => decide (st.UserID = userID)) = some state)
    (hget : GetSession env w guildID state.ChannelID = (w1, .ok session))
    (hsay : SayMessage env session content user w1 = (w2, some e)) :
    HandleSay env content user guildID userID w = (w2, some ("internal error: " ++ e)) ∧
      (∃ cause, e = "unable to synthesize speech: " ++ cause ∨
        e = "couldn't create pipe to transcoder: " ++ cause ∨
        e = "couldn't start transcoder: " ++ cause ∨
        e = "couldn't read raw audio: " ++ cause ∨
        e = "couldn't encode raw audio: " ++ cause) ∧
      mapGet w2.Sessions guildID = some session ∧
      ∃ added, w2.trace = w.trace ++ added ∧ ∀ c, Effect.disconnect c ∉ added := by
  obtain ⟨hreg, added1, ht1, hd1⟩ := GetSession_ok env w w1 guildID state.ChannelID session hget
  obtain ⟨hs, ⟨rest, ht2, hd2, _⟩, herr⟩ := SayMessage_effects env session content user w1
  rw [hsay] at hs ht2 herr
  simp only at hs ht2 herr
  refine ⟨?_, herr e rfl, ?_, ?_⟩
  · simp only [HandleSay, hguild]
    rw [HandleSay_loop_found env content user guildID userID guild.VoiceStates state w hstate]
    simp only [hget, hsay]
  · rw [hs]
    exact hreg
  · refine ⟨added1 ++ .synthesizeSpeech (synthesisInput content user) :: rest, ?_, ?_⟩
    · rw [ht2, ht1, List.append_assoc]
    · intro c hc
      simp only [List.mem_append, List.mem_cons] at hc
      rcases hc with h | h | h
      · exact hd1 c h
      · cases h
      · exact hd2 c h

theorem HandleSay_pipeline_error_witness :
    HandleSay envSynthFails "hello" { Voice := "Joanna", VoiceLang := "en-US" } "g" "alice"
        worldA =
        (emit (emit worldA (.alive 0))
            (.synthesizeSpeech
              (synthesisInput "hello" { Voice := "Joanna", VoiceLang := "en-US" })),
          some ("internal error: " ++ "unable to synthesize speech: quota")) ∧
      (∃ cause, "unable to synthesize speech: quota" = "unable to synthesize speech: " ++ cause ∨
        "unable to synthesize speech: quota" = "couldn't create pipe to transcoder: " ++ cause ∨
        "unable to synthesize speech: quota" = "couldn't start transcoder: " ++ cause ∨
        "unable to synthesize speech: quota" = "couldn't read raw audio: " ++ cause ∨
        "unable to synthesize speech: quota" = "couldn't encode raw audio: " ++ cause) ∧
      mapGet (emit (emit worldA (.alive 0))
          (.synthesizeSpeech
            (synthesisInput "hello" { Voice := "Joanna", VoiceLang := "en-US" }))).Sessions "g" =
        some sessionA ∧
      ∃ added, (emit (emit worldA (.alive 0))
          (.synthesizeSpeech
            (synthesisInput "hello" { Voice := "Joanna", VoiceLang := "en-US" }))).trace =
        worldA.trace ++ added ∧ ∀ c, Effect.disconnect c ∉ added :=
  HandleSay_pipeline_error envSynthFails "hello" { Voice := "Joanna", VoiceLang := "en-US" } "g"
    "alice" { VoiceStates := [{ UserID := "alice", ChannelID := "A" }] }
    { UserID := "alice", ChannelID := "A" } worldA (emit worldA (.alive 0))
    (emit (emit worldA (.alive 0))
      (.synthesizeSpeech (synthesisInput "hello" { Voice := "Joanna", VoiceLang := "en-US" })))
    sessionA "unable to synthesize speech: quota" rfl (by decide) rfl rfl

end Voice
